import Mathlib

/-!
Shallow embedding of `collections::autorelease_queue`
(src/JContainers/src/autorelease_queue.h) and verification of its
specified properties.

The tick counter has C++ type `uint32_t` (`time_point`); we embed it as a
`Nat` together with the bound `≤ MAX` where `MAX = 2^32 - 1 =
std::numeric_limits<uint32_t>::max()`.  On inputs within that bound the
`Nat` definitions below compute exactly what the C++ does: every C++
subtraction below is guarded so it never underflows, and every addition
is guarded so it never exceeds `MAX`.
-/

namespace collections

namespace autorelease_queue

/-- `std::numeric_limits<uint32_t>::max()`. -/
def MAX : Nat := 2 ^ 32 - 1

/-- Embeds `autorelease_queue::time_subtract`:
`if (minuend >= subtrahend) return minuend - subtrahend;
 else return max - (subtrahend - minuend);`. -/
def time_subtract (minuend subtrahend : Nat) : Nat :=
  if subtrahend ≤ minuend then minuend - subtrahend
  else MAX - (subtrahend - minuend)

/-- Embeds `autorelease_queue::time_add`:
`if ((max - a) > b) return a + b; else return b - (max - a);`. -/
def time_add (a b : Nat) : Nat :=
  if b < MAX - a then a + b
  else b - (MAX - a)

/-- `obj_lifetime = 10` seconds (enum constant). -/
def obj_lifetime : Nat := 10

/-- `tick_duration = 2` seconds (enum constant). -/
def tick_duration : Nat := 2

/-- `one_tick = 1` (enum constant). -/
def one_tick : Nat := 1

/-- `obj_lifeInTicks = obj_lifetime / tick_duration` (enum constant, = 5). -/
def obj_lifeInTicks : Nat := obj_lifetime / tick_duration

/-- State of an `autorelease_queue` object.  The C++ fields `_queue`
(a deque of `(queue_object_ref, time_point)` pairs — an owning smart
pointer plus the pushed tick) and `_tickCounter` are embedded directly;
the owning reference is represented by the object's numeric identity.
`timerActive` models whether the asio deadline timer is armed (the
Ticker running): `start`/`u_startTimer` arm it, `stop` cancels it. -/
structure State where
  queue : List (Nat × Nat)
  tickCounter : Nat
  timerActive : Bool
deriving Repr, DecidableEq

/-- Embeds `prolong_lifetime(object, isPublic)`:
`pushedTime = isPublic ? _tickCounter : time_subtract(_tickCounter, obj_lifeInTicks);
 _queue.push_back(make_pair(&object, pushedTime));`. -/
def prolong_lifetime (s : State) (object : Nat) (isPublic : Bool) : State :=
  let pushedTime := if isPublic then s.tickCounter
                    else time_subtract s.tickCounter obj_lifeInTicks
  { s with queue := s.queue ++ [(object, pushedTime)] }

/-- Embeds `u_count()`: `_queue.size()`. -/
def u_count (s : State) : Nat := s.queue.length

/-- Embeds `count()`: `u_count()` under the queue lock. -/
def count (s : State) : Nat := u_count s

/-- The release predicate of one sweep, from the `remove_if` lambda in
`tick()`: `diff = time_subtract(_tickCounter, val.second) + 1;
release = diff >= obj_lifeInTicks;`.  The C++ `diff` is computed in
unsigned 32-bit arithmetic, so the `+ 1` wraps modulo `2 ^ 32` (at
`time_subtract _ _ = MAX` the diff is `0` and the entry is kept). -/
def shouldRelease (tickCounter pushedTick : Nat) : Bool :=
  decide (obj_lifeInTicks ≤ (time_subtract tickCounter pushedTick + 1) % 2 ^ 32)

/-- Embeds `tick()`: under the locks, erase/`remove_if` every entry whose
`diff >= obj_lifeInTicks` (moving each such owned reference into
`_toRelease`, whence it is released once), then advance
`_tickCounter = time_add(_tickCounter, one_tick)` and rearm the timer
(`u_startTimer`).  Returns the new state and the released entries. -/
def tick (s : State) : State × List (Nat × Nat) :=
  ({ queue := s.queue.filter (fun val => ! shouldRelease s.tickCounter val.2),
     tickCounter := time_add s.tickCounter one_tick,
     timerActive := s.timerActive },
   s.queue.filter (fun val => shouldRelease s.tickCounter val.2))

/-- The state after one sweep (`tick`), discarding the released list. -/
def sweep (s : State) : State := (tick s).1

/-- Embeds `stop()`: cancels the pending timer under the timer lock. -/
def stop (s : State) : State := { s with timerActive := false }

/-- Embeds `u_clear()`: `stop(); _tickCounter = 0; _queue.clear();
_toRelease.clear();`.  Clearing the deque drops each owned reference it
holds exactly once; the second component lists those released entries. -/
def u_clear (s : State) : State × List (Nat × Nat) :=
  let s1 := stop s
  ({ queue := [], tickCounter := 0, timerActive := s1.timerActive }, s1.queue)

/-- Embeds `load(ar, version)`: reads `_tickCounter` from the archive
first, then branches on `version`.  Version 1 reads the
`(reference, pushedTick)` pairs directly; version 0 reads
`(Handle, pushedTick)` pairs and resolves each handle through
`_registry.u_getObject`, pushing back (`_queue.push_back`, appending to
the existing deque) only the pairs that resolve; any other version hits
`jc_assert(false)` — an unrecoverable assertion failure, embedded as
`none`.  `registry` embeds `object_registry::u_getObject`;
`archivePairs` are the raw archived pairs (first component: reference
for v1, handle for v0). -/
def load (s : State) (registry : Nat → Option Nat) (version : Nat)
    (archiveTick : Nat) (archivePairs : List (Nat × Nat)) : Option State :=
  match version with
  | 1 => some { s with tickCounter := archiveTick, queue := archivePairs }
  | 0 =>
    let resolved := archivePairs.filterMap
      (fun pair => (registry pair.1).map (fun object => (object, pair.2)))
    some { s with tickCounter := archiveTick, queue := s.queue ++ resolved }
  | _ => none

/-! ### Basic arithmetic lemmas about the wrap-around clock -/

/-- `obj_lifeInTicks` evaluates to 5. -/
lemma obj_lifeInTicks_eq : obj_lifeInTicks = 5 := rfl

/-- One counter advance stays within the `uint32_t` range and, as long as
the cyclic distance from a base point `t` has not come full circle,
increases that distance by exactly one. -/
lemma time_subtract_step (c t : Nat) (hc : c ≤ MAX) (ht : t ≤ MAX)
    (hd : time_subtract c t < MAX - 1) :
    time_subtract (time_add c one_tick) t = time_subtract c t + 1 ∧
      time_add c one_tick ≤ MAX := by
  simp only [time_subtract, time_add, one_tick, MAX] at *
  split_ifs at * <;> omega

/-- Advancing the counter by `one_tick` from below `MAX` stays below `MAX`:
`time_add (MAX - 1) 1 = 0`, so the value `MAX` is skipped. -/
lemma time_add_one_lt (c : Nat) (h : c < MAX) : time_add c one_tick < MAX := by
  simp only [time_add, one_tick, MAX] at *
  split_ifs <;> omega

/-- The tick counter of a state stays below `MAX` under sweeps. -/
lemma sweep_iterate_tickCounter_lt (s : State) (h : s.tickCounter < MAX) :
    ∀ n : Nat, (sweep^[n] s).tickCounter < MAX := by
  intro n
  induction n with
  | zero => simpa using h
  | succ n ih =>
    rw [Function.iterate_succ_apply']
    exact time_add_one_lt _ ih

/-- The counter advance performed at the end of each sweep
(`_tickCounter = time_add(_tickCounter, one_tick)`). -/
def advance (c : Nat) : Nat := time_add c one_tick

/-- `prolong_lifetime` with `isPublic = true` appends the entry stamped
with the current tick counter. -/
lemma prolong_public_eq (s : State) (x : Nat) :
    prolong_lifetime s x true = { s with queue := s.queue ++ [(x, s.tickCounter)] } := by
  simp [prolong_lifetime]

/-- `prolong_lifetime` with `isPublic = false` appends the entry
back-dated by `obj_lifeInTicks`. -/
lemma prolong_private_eq (s : State) (x : Nat) :
    prolong_lifetime s x false =
      { s with queue := s.queue ++ [(x, time_subtract s.tickCounter obj_lifeInTicks)] } := by
  simp [prolong_lifetime]

/-- Back-dating by `obj_lifeInTicks` and measuring the elapsed ticks from
the same counter value yields exactly `obj_lifeInTicks`, for every
representable counter value (including `T < obj_lifeInTicks`, where the
back-dating wraps). -/
lemma backdated_diff (T : Nat) (hT : T ≤ MAX) :
    time_subtract T (time_subtract T obj_lifeInTicks) = obj_lifeInTicks := by
  simp only [time_subtract, obj_lifeInTicks_eq, MAX] at *
  split_ifs <;> omega

/-- `tick` on a single-entry queue whose entry is not yet due keeps the
entry and advances the counter; nothing is released. -/
lemma tick_single_keep (x p c : Nat) (b : Bool) (h : shouldRelease c p = false) :
    tick (State.mk [(x, p)] c b) = (State.mk [(x, p)] (advance c) b, []) := by
  simp [tick, List.filter, h, advance]

/-- `tick` on a single-entry queue whose entry is due erases it from the
queue, moves it to the release list, and advances the counter. -/
lemma tick_single_release (x p c : Nat) (b : Bool) (h : shouldRelease c p = true) :
    tick (State.mk [(x, p)] c b) = (State.mk [] (advance c) b, [(x, p)]) := by
  simp [tick, List.filter, h, advance]

/-- A queue holding a single public entry pushed at the current counter
value `T` is left intact by each of the first `obj_lifeInTicks - 1 = 4`
sweeps, while the counter advances and its cyclic distance from `T`
counts the number of completed sweeps. -/
lemma single_public_sweeps (x T : Nat) (b : Bool) (hT : T ≤ MAX) :
    ∀ k, k ≤ 4 →
      sweep^[k] (State.mk [(x, T)] T b) = State.mk [(x, T)] (advance^[k] T) b ∧
        time_subtract (advance^[k] T) T = k ∧ advance^[k] T ≤ MAX := by
  intro k
  induction k with
  | zero =>
    intro _
    refine ⟨rfl, ?_, hT⟩
    simp [time_subtract]
  | succ k ih =>
    intro hk
    obtain ⟨hstate, hsub, hbound⟩ := ih (Nat.le_of_succ_le hk)
    have hrel : shouldRelease (advance^[k] T) T = false := by
      simp only [shouldRelease, hsub, obj_lifeInTicks_eq, decide_eq_false_iff_not]
      omega
    have hd : time_subtract (advance^[k] T) T < MAX - 1 := by
      rw [hsub]
      simp only [MAX]
      omega
    have hstep := time_subtract_step (advance^[k] T) T hbound hT hd
    refine ⟨?_, ?_, ?_⟩
    · rw [Function.iterate_succ_apply', hstate, Function.iterate_succ_apply']
      simp only [sweep]
      rw [tick_single_keep x T (advance^[k] T) b hrel]
    · rw [Function.iterate_succ_apply', advance, hstep.1, hsub]
    · rw [Function.iterate_succ_apply']
      exact hstep.2

/-- On the fifth sweep (`k = 4` completed sweeps, so elapsed diff
`4 + 1 = 5 ≥ obj_lifeInTicks`), the single public entry is moved to the
release list and erased from the queue. -/
lemma single_public_fifth (x T : Nat) (b : Bool) (hT : T ≤ MAX) :
    (tick (sweep^[4] (State.mk [(x, T)] T b))).2 = [(x, T)] ∧
      sweep^[5] (State.mk [(x, T)] T b) = State.mk [] (advance^[5] T) b := by
  obtain ⟨hstate, hsub, hbound⟩ := single_public_sweeps x T b hT 4 (le_refl 4)
  have hrel : shouldRelease (advance^[4] T) T = true := by
    simp only [shouldRelease, hsub, obj_lifeInTicks_eq, decide_eq_true_eq]
    omega
  constructor
  · rw [hstate, tick_single_release x T (advance^[4] T) b hrel]
  · have h5 : sweep^[5] (State.mk [(x, T)] T b) =
        sweep (sweep^[4] (State.mk [(x, T)] T b)) :=
      Function.iterate_succ_apply' sweep 4 (State.mk [(x, T)] T b)
    have h5' : advance^[5] T = advance (advance^[4] T) :=
      Function.iterate_succ_apply' advance 4 T
    rw [h5, h5', hstate]
    simp only [sweep]
    rw [tick_single_release x T (advance^[4] T) b hrel]

/-- C1: the claimed inversion law
`time_subtract (time_add a b) b = a ∧ time_subtract (time_add a b) a = b`
for ALL representable `a, b` is refuted at `a = MAX`, `b = 0`:
`time_add MAX 0 = 0` and `time_subtract 0 0 = 0 ≠ MAX`. -/
theorem C1_counterexample :
    time_add MAX 0 = 0 ∧ ¬ time_subtract (time_add MAX 0) 0 = MAX := by
  constructor
  · decide
  · decide

/-- C1 (amended): for `a, b` in the counter's range, the first inversion
law `time_subtract (time_add a b) b = a` holds whenever `a < MAX`, and
the second law `time_subtract (time_add a b) a = b` holds whenever
`b < MAX`; both fail at the single boundary value `MAX`. -/
theorem C1_inversion (a b : Nat) (ha : a ≤ MAX) (hb : b ≤ MAX) :
    (a < MAX → time_subtract (time_add a b) b = a) ∧
      (b < MAX → time_subtract (time_add a b) a = b) := by
  simp only [time_subtract, time_add, MAX] at *
  constructor <;> intro hlt <;> split_ifs <;> omega

/-- Witness for `C1_inversion` at `a = 8`, `b = 9` (the values of the
repository's own `time_wrapping` test). -/
theorem C1_inversion_witness :
    time_subtract (time_add 8 9) 9 = 8 ∧ time_subtract (time_add 8 9) 8 = 9 :=
  ⟨(C1_inversion 8 9 (by decide) (by decide)).1 (by decide),
   (C1_inversion 8 9 (by decide) (by decide)).2 (by decide)⟩

/-- C3: the claimed value `time_subtract 0 1 = MAX` is refuted: the code
returns `MAX - (1 - 0) = MAX - 1` (as the repository's own test expects). -/
theorem C3_counterexample : ¬ time_subtract 0 1 = MAX := by decide

/-- C3 (amended): subtraction handles underflow as cyclic distance with
`time_subtract 0 1 = MAX - 1` (not `MAX`) and
`time_subtract 10 20 = MAX - 10`. -/
theorem C3_subtract_underflow :
    time_subtract 0 1 = MAX - 1 ∧ time_subtract 10 20 = MAX - 10 := by
  constructor
  · decide
  · decide

/-- C4: the claimed value `time_add MAX MAX = MAX - 1` is refuted: the
code returns `MAX - (MAX - MAX) = MAX` (as the repository's own test
expects). -/
theorem C4_counterexample : ¬ time_add MAX MAX = MAX - 1 := by decide

/-- C4 (amended): addition wraps at the boundary with
`time_add MAX 1 = 1` (the claim's "or 1 if the counter's zero is
reserved" convention) and `time_add MAX MAX = MAX` (not `MAX - 1`). -/
theorem C4_add_wrap : time_add MAX 1 = 1 ∧ time_add MAX MAX = MAX := by
  constructor
  · decide
  · decide

/-- C10: whenever `a + b = MAX` (no arithmetic overflow), `time_add a b`
returns `0` rather than `MAX`; in particular `time_add MAX 0 = 0`, so `0`
is not a right identity of `time_add`; the sweep's counter advance maps
`MAX - 1` to `0`; and a counter advanced only by sweeps from an initial
value of `0` never attains `MAX`. -/
theorem C10_add_skips_max :
    (∀ a b : Nat, a + b = MAX → time_add a b = 0) ∧
      time_add MAX 0 = 0 ∧ time_add MAX 0 ≠ MAX ∧
      time_add (MAX - 1) one_tick = 0 ∧
      (∀ (s : State) (n : Nat), s.tickCounter = 0 →
        (sweep^[n] s).tickCounter ≠ MAX) := by
  refine ⟨?_, by decide, by decide, by decide, ?_⟩
  · intro a b hab
    simp only [time_add, MAX] at *
    split_ifs <;> omega
  · intro s n h0
    have hlt : s.tickCounter < MAX := by rw [h0]; decide
    exact Nat.ne_of_lt (sweep_iterate_tickCounter_lt s hlt n)

/-- Witness for `C10_add_skips_max` at `a = 1`, `b = MAX - 1` and at the
concrete state with counter `0` after `3` sweeps. -/
theorem C10_add_skips_max_witness :
    time_add 1 (MAX - 1) = 0 ∧
      (sweep^[3] (State.mk [] 0 true)).tickCounter ≠ MAX :=
  ⟨C10_add_skips_max.1 1 (MAX - 1) (by decide),
   C10_add_skips_max.2.2.2.2 (State.mk [] 0 true) 3 rfl⟩

/-- Prolonging publicly into an empty queue at counter `T` yields the
single entry `(x, T)`. -/
lemma prolong_public_empty (T : Nat) (b : Bool) (x : Nat) :
    prolong_lifetime (State.mk [] T b) x true = State.mk [(x, T)] T b := rfl

/-- Prolonging privately into an empty queue at counter `T` yields the
single back-dated entry. -/
lemma prolong_private_empty (T : Nat) (b : Bool) (y : Nat) :
    prolong_lifetime (State.mk [] T b) y false =
      State.mk [(y, time_subtract T obj_lifeInTicks)] T b := rfl

/-- C2: with `obj_lifeInTicks = 5`, a public entry pushed at counter `T`
is still in the queue after each of the first `obj_lifeInTicks - 1 = 4`
sweeps, is moved to the release list by the 5th sweep and is gone from
the queue after it; in the concrete scenario `T = 0` the counter reads
`4` after 4 sweeps and `5` after the 5th; and every sweep releases
exactly the entries with `time_subtract tickCounter pushedTick + 1 ≥
obj_lifeInTicks` and advances the counter by `one_tick`. -/
theorem C2_public_expiry (T x : Nat) (b : Bool) (hT : T ≤ MAX) :
    (∀ k, k ≤ obj_lifeInTicks - 1 →
      (sweep^[k] (prolong_lifetime (State.mk [] T b) x true)).queue = [(x, T)]) ∧
    (tick (sweep^[obj_lifeInTicks - 1]
        (prolong_lifetime (State.mk [] T b) x true))).2 = [(x, T)] ∧
    (sweep^[obj_lifeInTicks] (prolong_lifetime (State.mk [] T b) x true)).queue = [] ∧
    (sweep^[4] (prolong_lifetime (State.mk [] 0 b) x true)).queue = [(x, 0)] ∧
    (sweep^[4] (prolong_lifetime (State.mk [] 0 b) x true)).tickCounter = 4 ∧
    (sweep^[5] (prolong_lifetime (State.mk [] 0 b) x true)).queue = [] ∧
    (sweep^[5] (prolong_lifetime (State.mk [] 0 b) x true)).tickCounter = 5 ∧
    (∀ s : State,
      (tick s).2 = s.queue.filter (fun val => shouldRelease s.tickCounter val.2) ∧
      (tick s).1.tickCounter = time_add s.tickCounter one_tick) := by
  refine ⟨?_, ?_, ?_, ?_, ?_, ?_, ?_, fun s => ⟨rfl, rfl⟩⟩
  · intro k hk
    rw [obj_lifeInTicks_eq] at hk
    have hk4 : k ≤ 4 := by omega
    rw [prolong_public_empty, (single_public_sweeps x T b hT k hk4).1]
  · rw [prolong_public_empty]
    exact (single_public_fifth x T b hT).1
  · rw [prolong_public_empty]
    exact congrArg State.queue (single_public_fifth x T b hT).2
  · rw [prolong_public_empty, (single_public_sweeps x 0 b (by decide) 4 (le_refl 4)).1]
  · rw [prolong_public_empty, (single_public_sweeps x 0 b (by decide) 4 (le_refl 4)).1]
    exact (by decide : advance^[4] (0 : Nat) = 4)
  · rw [prolong_public_empty]
    exact congrArg State.queue (single_public_fifth x 0 b (by decide)).2
  · rw [prolong_public_empty]
    exact (congrArg State.tickCounter (single_public_fifth x 0 b (by decide)).2).trans
      (show advance^[5] (0 : Nat) = 5 by decide)

/-- Witness for `C2_public_expiry` at `T = 0`, object id `7`. -/
theorem C2_public_expiry_witness :
    (sweep^[4] (prolong_lifetime (State.mk [] 0 true) 7 true)).queue = [(7, 0)] ∧
      (sweep^[5] (prolong_lifetime (State.mk [] 0 true) 7 true)).queue = [] :=
  ⟨(C2_public_expiry 0 7 true (by decide)).1 4 (by decide),
   (C2_public_expiry 0 7 true (by decide)).2.2.2.2.2.1⟩

/-- C9: for every representable counter value `T` — including
`T < obj_lifeInTicks`, where the back-dating wraps — a private entry's
elapsed diff at the very next sweep is `obj_lifeInTicks + 1 ≥
obj_lifeInTicks`, so the entry is released by the first sweep after
insertion. -/
theorem C9_private_first_sweep (T y : Nat) (b : Bool) (hT : T ≤ MAX) :
    time_subtract T (time_subtract T obj_lifeInTicks) + 1 = obj_lifeInTicks + 1 ∧
    obj_lifeInTicks ≤ time_subtract T (time_subtract T obj_lifeInTicks) + 1 ∧
    shouldRelease T (time_subtract T obj_lifeInTicks) = true ∧
    (tick (prolong_lifetime (State.mk [] T b) y false)).2 =
      [(y, time_subtract T obj_lifeInTicks)] ∧
    (tick (prolong_lifetime (State.mk [] T b) y false)).1.queue = [] := by
  have hdiff := backdated_diff T hT
  have hrel : shouldRelease T (time_subtract T obj_lifeInTicks) = true := by
    simp only [shouldRelease, hdiff]
    simp only [obj_lifeInTicks_eq, decide_eq_true_eq]
    omega
  refine ⟨by rw [hdiff], by rw [hdiff]; omega, hrel, ?_, ?_⟩
  · rw [prolong_private_empty,
      tick_single_release y (time_subtract T obj_lifeInTicks) T b hrel]
  · rw [prolong_private_empty,
      tick_single_release y (time_subtract T obj_lifeInTicks) T b hrel]

/-- Witness for `C9_private_first_sweep` at `T = 3 < obj_lifeInTicks`
(the wrapping case), object id `9`. -/
theorem C9_private_first_sweep_witness :
    shouldRelease 3 (time_subtract 3 obj_lifeInTicks) = true ∧
      (tick (prolong_lifetime (State.mk [] 3 false) 9 false)).1.queue = [] :=
  ⟨(C9_private_first_sweep 3 9 false (by decide)).2.2.1,
   (C9_private_first_sweep 3 9 false (by decide)).2.2.2.2⟩

/-- C5: `prolong_lifetime` stamps a public entry with the current tick
counter and back-dates a private entry by `obj_lifeInTicks`; pushing the
same-tick public entry `x` and private entry `y` into an empty queue,
the first sweep releases the private entry while the public entry is
still enqueued, so the private prolongation expires strictly no later
than the public one. -/
theorem C5_pushed_tick (s : State) (x y T : Nat) (b : Bool) (hT : T ≤ MAX) :
    (prolong_lifetime s x true).queue = s.queue ++ [(x, s.tickCounter)] ∧
    (prolong_lifetime s y false).queue =
      s.queue ++ [(y, time_subtract s.tickCounter obj_lifeInTicks)] ∧
    (tick (prolong_lifetime (prolong_lifetime (State.mk [] T b) x true) y false)).2 =
      [(y, time_subtract T obj_lifeInTicks)] ∧
    (sweep (prolong_lifetime (prolong_lifetime (State.mk [] T b) x true) y false)).queue =
      [(x, T)] := by
  have hq : prolong_lifetime (prolong_lifetime (State.mk [] T b) x true) y false =
      State.mk [(x, T), (y, time_subtract T obj_lifeInTicks)] T b := rfl
  have hpub : shouldRelease T T = false := by
    have h0 : time_subtract T T = 0 := by simp [time_subtract]
    simp only [shouldRelease, h0, obj_lifeInTicks_eq, decide_eq_false_iff_not]
    omega
  have hpriv : shouldRelease T (time_subtract T obj_lifeInTicks) = true := by
    simp only [shouldRelease, backdated_diff T hT]
    simp only [obj_lifeInTicks_eq, decide_eq_true_eq]
    omega
  refine ⟨by simp [prolong_lifetime], by simp [prolong_lifetime], ?_, ?_⟩
  · rw [hq]
    simp [tick, List.filter, hpub, hpriv]
  · rw [hq]
    simp [sweep, tick, List.filter, hpub, hpriv]

/-- Witness for `C5_pushed_tick` at `T = 0`, public id `1`, private id `2`. -/
theorem C5_pushed_tick_witness :
    (sweep (prolong_lifetime (prolong_lifetime (State.mk [] 0 true) 1 true) 2 false)).queue =
      [(1, 0)] :=
  (C5_pushed_tick (State.mk [] 0 true) 1 2 0 true (by decide)).2.2.2

/-- C6: `load` applies the archived tick counter in every non-fatal
branch; version 1 reads the `(reference, pushedTick)` pairs directly;
version 0 resolves each `(handle, pushedTick)` pair through the
registry, pushes the resolved pairs onto the existing queue, and
silently drops every pair whose handle does not resolve; any other
version is an unrecoverable assertion failure (`none`), never a
best-effort parse. -/
theorem C6_load_versioning (s : State) (registry : Nat → Option Nat)
    (archiveTick : Nat) (archivePairs : List (Nat × Nat)) :
    load s registry 1 archiveTick archivePairs =
      some (State.mk archivePairs archiveTick s.timerActive) ∧
    load s registry 0 archiveTick archivePairs =
      some (State.mk
        (s.queue ++ archivePairs.filterMap
          (fun pair => (registry pair.1).map (fun object => (object, pair.2))))
        archiveTick s.timerActive) ∧
    (∀ version, version ≠ 0 → version ≠ 1 →
      load s registry version archiveTick archivePairs = none) ∧
    (∀ version result,
      load s registry version archiveTick archivePairs = some result →
      result.tickCounter = archiveTick) := by
  refine ⟨rfl, rfl, ?_, ?_⟩
  · intro version h0 h1
    match version with
    | 0 => exact absurd rfl h0
    | 1 => exact absurd rfl h1
    | (n + 2) => rfl
  · intro version result h
    match version, h with
    | 0, h => cases h; rfl
    | 1, h => cases h; rfl

/-- Witness for `C6_load_versioning`: version `2` is rejected even for an
empty archive. -/
theorem C6_load_versioning_witness :
    load (State.mk [] 0 true) (fun _ => none) 2 7 [] = none :=
  (C6_load_versioning (State.mk [] 0 true) (fun _ => none) 7 []).2.2.1 2
    (by decide) (by decide)

/-- C7: after `u_clear` the queue is empty (`count = 0`), the tick
counter is zero, the Ticker's timer is cancelled (`stop` runs before the
queue is mutated, and its effect persists in the final state), and the
previously held owned references are exactly the released ones — each
exactly once. -/
theorem C7_clear (s : State) :
    (u_clear s).1.queue = [] ∧
    count (u_clear s).1 = 0 ∧
    (u_clear s).1.tickCounter = 0 ∧
    (u_clear s).1.timerActive = false ∧
    (u_clear s).2 = s.queue ∧
    (u_clear s).1.timerActive = (stop s).timerActive ∧
    (u_clear s).2 = (stop s).queue :=
  ⟨rfl, rfl, rfl, rfl, rfl, rfl, rfl⟩

/-- Witness for `C7_clear` at a one-entry state with counter `3` and an
armed timer. -/
theorem C7_clear_witness :
    (u_clear (State.mk [(1, 2)] 3 true)).1.queue = [] ∧
      (u_clear (State.mk [(1, 2)] 3 true)).2 = [(1, 2)] :=
  ⟨(C7_clear (State.mk [(1, 2)] 3 true)).1,
   (C7_clear (State.mk [(1, 2)] 3 true)).2.2.2.2.1⟩

end autorelease_queue

end collections
